import Mathlib

/-!
Shallow embedding of the cdm-backend core services (app/services/users.py,
app/services/lists.py, app/services/task.py).

Modelling conventions:
* Opaque string identifiers (uuid4 user/list/task ids, share tokens) are
  modelled as `Nat`; fresh ids come from a counter `nextId` threaded in the
  store state.  A supplied id is always truthy.
* Timestamps (`datetime.now()` formatted to seconds) are modelled as a `Nat`
  clock read from the state.
* bcrypt hashing is modelled as an injective deterministic tagging function;
  `verify` compares the tag of the plaintext with the stored hash.
* The Mongo collections are lists of records in insertion order:
  `insert_one` appends, `find_one` returns the first match, `find` returns
  all matches in order, `update_one` with `$set` rewrites the first match.
* Python exceptions become `Except Err`; operations that mutate the store
  return the (possibly partially mutated) state alongside the result, the
  way an escaping Python exception leaves already-performed writes in place.
* Pydantic update models with `exclude_unset` semantics are records of
  `Option` fields (`none` = not set).
-/

namespace CDM

/-- Python falsiness test for an optional string argument
(`if username:` is false for both None and the empty string). -/
def truthyS (o : Option String) : Bool :=
  match o with
  | none => false
  | some s => !s.isEmpty

/-- `update_one(filter, \x7b$set: ...\x7d)`: rewrite the first matching
document, leave the rest alone. -/
def updateFirst (p : α → Bool) (f : α → α) : List α → List α
  | [] => []
  | x :: xs => if p x then f x :: xs else x :: updateFirst p f xs

/-- Stored user document (users.py `user_doc`). -/
structure UserDoc where
  user_id : Nat
  username : String
  email : String
  phone_number : String
  first_name : String
  last_name : String
  password : String
  created_at : Nat
  last_updated_at : Nat
  google_id : String
deriving DecidableEq

/-- `UserResponse` (users.py): the outward view, password excluded. -/
structure UserView where
  user_id : Nat
  username : String
  email : String
  phone_number : String
  first_name : String
  last_name : String
  created_at : Nat
  last_updated_at : Nat
deriving DecidableEq

/-- `UserUpdate` (users.py): all fields optional, no password field. -/
structure UserUpdateData where
  username : Option String
  email : Option String
  phone_number : Option String
  first_name : Option String
  last_name : Option String
  google_id : Option String
deriving DecidableEq

/-- Stored list document (lists.py `list_doc`), same shape as `ListResponse`. -/
structure ListRec where
  list_id : Nat
  user_id : Nat
  list_name : String
  created_at : Nat
  last_updated_at : Nat
  visibility : String
  version : Int
  share_token : Nat
deriving DecidableEq

/-- `ListUpdate` (schemas/list.py): all fields optional. -/
structure ListUpdateData where
  list_id : Option Nat
  user_id : Option Nat
  list_name : Option String
  created_at : Option Nat
  last_updated_at : Option Nat
  version : Option Int
  visibility : Option String
  share_token : Option Nat
deriving DecidableEq

/-- Stored task document (task.py `task_doc`), same shape as `TaskResponse`. -/
structure TaskRec where
  user_id : Nat
  list_id : Nat
  task_id : Nat
  task_name : String
  reminders : List Nat
  isComplete : Bool
  isPriority : Bool
  isRecurring : Bool
  createdAt : Nat
  updatedAt : Nat
  list_version : Int
deriving DecidableEq

/-- `TaskCreate` (task.py). -/
structure TaskCreateData where
  user_id : Nat
  list_id : Nat
  task_name : String
  reminders : List Nat
  isPriority : Bool
  isRecurring : Bool
  list_version : Int
deriving DecidableEq

/-- `TaskUpdate` (task.py): all fields optional. -/
structure TaskUpdateData where
  user_id : Option Nat
  list_id : Option Nat
  task_id : Option Nat
  task_name : Option String
  reminders : Option (List Nat)
  isComplete : Option Bool
  isPriority : Option Bool
  isRecurring : Option Bool
  createdAt : Option Nat
  updatedAt : Option Nat
  list_version : Option Int
deriving DecidableEq

/-- The document store plus id/clock sources. -/
structure DB where
  users : List UserDoc
  lists : List ListRec
  tasks : List TaskRec
  nextId : Nat
  clock : Nat
deriving DecidableEq

/-- The exceptions the services raise.  `attributeError` is Python's
AttributeError, `valueError` its ValueError, `validationError` a pydantic
model-construction failure. -/
inductive Err where
  | userNotFound
  | taskNotFound
  | listNotFound
  | noFieldsToUpdate
  | invalidVersion
  | invalidParameters
  | listAuthDenied
  | attributeError
  | valueError
  | validationError
  | noTasksToRemove
deriving DecidableEq

/-! ### UserService (app/services/users.py) -/

/-- bcrypt hashing, modelled as an injective deterministic tag. -/
def _hash_password (p : String) : String := "#" ++ p

/-- `pwd_context.verify`. -/
def _verify_password (plain hashed : String) : Bool := _hash_password plain == hashed

/-- One optional string criterion of `user_exists`; skipped when the
argument is falsy (None or empty). -/
def strCrit (o : Option String) (f : UserDoc → String) : List (UserDoc → Bool) :=
  match o with
  | none => []
  | some s => if s.isEmpty then [] else [fun u => f u == s]

/-- One optional id criterion of `user_exists` (ids are opaque non-empty
strings in the source, so a supplied id is always truthy). -/
def natCrit (o : Option Nat) (f : UserDoc → Nat) : List (UserDoc → Bool) :=
  match o with
  | none => []
  | some i => [fun u => f u == i]

/-- `user_exists` (users.py 85-104), on the users collection.  The source
builds `query_conditions` from username, email, phone_number and user_id
only; the `google_id` parameter is accepted but never appended to the
conditions.  Empty conditions return False without querying; otherwise a
`$or` `find_one`. -/
def user_existsL (username email phone_number : Option String) (user_id : Option Nat)
    (google_id : Option String) (users : List UserDoc) : Bool :=
  let conds :=
    strCrit username (fun u => u.username) ++
    strCrit email (fun u => u.email) ++
    strCrit phone_number (fun u => u.phone_number) ++
    natCrit user_id (fun u => u.user_id)
  if conds.isEmpty then false
  else users.any (fun u => conds.any (fun c => c u))

/-- `user_exists` on the full state. -/
def user_exists (username email phone_number : Option String) (user_id : Option Nat)
    (google_id : Option String) (db : DB) : Bool :=
  user_existsL username email phone_number user_id google_id db.users

/-- `UserResponse(**doc minus password)`. -/
def userViewOf (u : UserDoc) : UserView :=
  ⟨u.user_id, u.username, u.email, u.phone_number, u.first_name, u.last_name,
   u.created_at, u.last_updated_at⟩

/-- `get_user` (users.py 141-152). -/
def get_user (uid : Nat) (db : DB) : Except Err UserView :=
  match db.users.find? (fun u => u.user_id == uid) with
  | none => .error .userNotFound
  | some u => .ok (userViewOf u)

/-- `model_dump(exclude_unset=True)` is empty iff no field was set. -/
def emptyUserUpdate (p : UserUpdateData) : Bool :=
  p.username.isNone && p.email.isNone && p.phone_number.isNone &&
  p.first_name.isNone && p.last_name.isNone && p.google_id.isNone

/-- Apply the `$set` patch of `update_user`: the provided fields plus the
refreshed `last_updated_at`.  No password field exists on `UserUpdate`. -/
def applyUserUpdate (p : UserUpdateData) (now : Nat) (u : UserDoc) : UserDoc :=
  { u with
    username := p.username.getD u.username
    email := p.email.getD u.email
    phone_number := p.phone_number.getD u.phone_number
    first_name := p.first_name.getD u.first_name
    last_name := p.last_name.getD u.last_name
    google_id := p.google_id.getD u.google_id
    last_updated_at := now }

/-- `update_user` (users.py 154-176). -/
def update_user (uid : Nat) (p : UserUpdateData) (db : DB) : Except Err UserView × DB :=
  if !(user_exists none none none (some uid) none db) then (.error .userNotFound, db)
  else if emptyUserUpdate p then (.error .noFieldsToUpdate, db)
  else
    let db' := { db with
      users := updateFirst (fun u => u.user_id == uid) (applyUserUpdate p db.clock) db.users }
    (get_user uid db', db')

/-- `authenticate_user` (users.py 192-203): None for unknown username or
password mismatch, the password-free view otherwise. -/
def authenticate_user (username password : String) (db : DB) : Option UserView :=
  match db.users.find? (fun u => u.username == username) with
  | none => none
  | some u => if _verify_password password u.password then some (userViewOf u) else none

/-! ### ListService (app/services/lists.py) -/

def sPRIVATE : String := "PRIVATE"

def sORG : String := "ORGANIZATION_ONLY"

def sPUBLIC : String := "PUBLIC"

/-- `list_exists(user_id=None, list_name=None, list_id=None)`
(lists.py 35-53): the `list_id` keyword alone decides when truthy, else the
`(user_id, list_name)` pair, else `InvalidParameters`. -/
def list_existsL (user_id : Option Nat) (list_name : Option String) (list_id : Option Nat)
    (lists : List ListRec) : Except Err Bool :=
  match list_id with
  | some i => .ok (lists.any (fun l => l.list_id == i))
  | none =>
    match user_id, list_name with
    | some u, some n =>
      if n.isEmpty then .error .invalidParameters
      else .ok (lists.any (fun l => l.user_id == u && l.list_name == n))
    | _, _ => .error .invalidParameters

/-- `list_exists` on the full state; arguments in the source's positional
order `(user_id, list_name, list_id)`. -/
def list_exists (user_id : Option Nat) (list_name : Option String) (list_id : Option Nat)
    (db : DB) : Except Err Bool :=
  list_existsL user_id list_name list_id db.lists

/-- `get_list` (lists.py 113-125). -/
def get_list (lid : Nat) (db : DB) : Except Err ListRec :=
  match db.lists.find? (fun l => l.list_id == lid) with
  | none => .error .listNotFound
  | some l => .ok l

def emptyListUpdate (p : ListUpdateData) : Bool :=
  p.list_id.isNone && p.user_id.isNone && p.list_name.isNone && p.created_at.isNone &&
  p.last_updated_at.isNone && p.version.isNone && p.visibility.isNone && p.share_token.isNone

def validVisibility (v : String) : Bool :=
  v == sPRIVATE || v == sORG || v == sPUBLIC

/-- Apply the `$set` patch of `update_list`: the provided fields, with
`last_updated_at` overwritten by the fresh timestamp. -/
def applyListUpdate (p : ListUpdateData) (now : Nat) (l : ListRec) : ListRec :=
  { l with
    list_id := p.list_id.getD l.list_id
    user_id := p.user_id.getD l.user_id
    list_name := p.list_name.getD l.list_name
    created_at := p.created_at.getD l.created_at
    last_updated_at := now
    version := p.version.getD l.version
    visibility := p.visibility.getD l.visibility
    share_token := p.share_token.getD l.share_token }

/-- `update_list` (lists.py 82-111): existence check, empty-patch check,
visibility validated only when supplied and truthy, then `$set` and re-read. -/
def update_list (lid : Nat) (p : ListUpdateData) (db : DB) : Except Err ListRec × DB :=
  match list_exists none none (some lid) db with
  | .error e => (.error e, db)
  | .ok false => (.error .listNotFound, db)
  | .ok true =>
    if emptyListUpdate p then (.error .noFieldsToUpdate, db)
    else
      match p.visibility with
      | some v =>
        if !v.isEmpty && !(validVisibility v) then (.error .valueError, db)
        else
          let db' := { db with
            lists := updateFirst (fun l => l.list_id == lid) (applyListUpdate p db.clock) db.lists }
          (get_list lid db', db')
      | none =>
        let db' := { db with
          lists := updateFirst (fun l => l.list_id == lid) (applyListUpdate p db.clock) db.lists }
        (get_list lid db', db')

/-- `increment_version` (lists.py 191-209): read, `update_list` with
`version = current + 1`, re-read. -/
def increment_version (lid : Nat) (db : DB) : Except Err ListRec × DB :=
  match get_list lid db with
  | .error e => (.error e, db)
  | .ok cur =>
    let patch : ListUpdateData :=
      ⟨none, none, none, none, none, some (cur.version + 1), none, none⟩
    match update_list lid patch db with
    | (.error e, db') => (.error e, db')
    | (.ok _, db') => (get_list lid db', db')

/-- `get_list_with_share_token` (lists.py 127-157).  On the
ORGANIZATION_ONLY branch the source evaluates `list_owner.domain_name`, an
attribute neither `UserResponse` model declares, so Python raises
AttributeError before any domain comparison happens. -/
def get_list_with_share_token (token : Nat) (requester_id : Nat) (db : DB) :
    Except Err ListRec :=
  match db.lists.find? (fun l => l.share_token == token) with
  | none => .error .listNotFound
  | some lobj =>
    match get_user lobj.user_id db with
    | .error e => .error e
    | .ok owner =>
      match get_user requester_id db with
      | .error e => .error e
      | .ok requester =>
        if owner.user_id != requester.user_id then
          if lobj.visibility == sPRIVATE then .error .listAuthDenied
          else if lobj.visibility == sORG then .error .attributeError
          else .ok lobj
        else .ok lobj

/-! ### TaskService (app/services/task.py) -/

/-- `create_task` (task.py 103-134): user and list existence checks, fresh
id, `isComplete` forced to False, both timestamps stamped now,
`list_version` persisted exactly as given in the draft, document appended. -/
def create_task (draft : TaskCreateData) (db : DB) : Except Err TaskRec × DB :=
  if !(user_exists none none none (some draft.user_id) none db) then (.error .userNotFound, db)
  else
    match list_exists none none (some draft.list_id) db with
    | .error e => (.error e, db)
    | .ok false => (.error .listNotFound, db)
    | .ok true =>
      let t : TaskRec :=
        ⟨draft.user_id, draft.list_id, db.nextId, draft.task_name, draft.reminders,
         false, draft.isPriority, draft.isRecurring, db.clock, db.clock, draft.list_version⟩
      (.ok t, { db with tasks := db.tasks ++ [t], nextId := db.nextId + 1 })

/-- `get_task` (task.py 136-146). -/
def get_task (tid : Nat) (db : DB) : Except Err TaskRec :=
  match db.tasks.find? (fun t => t.task_id == tid) with
  | none => .error .taskNotFound
  | some t => .ok t

def emptyTaskUpdate (p : TaskUpdateData) : Bool :=
  p.user_id.isNone && p.list_id.isNone && p.task_id.isNone && p.task_name.isNone &&
  p.reminders.isNone && p.isComplete.isNone && p.isPriority.isNone && p.isRecurring.isNone &&
  p.createdAt.isNone && p.updatedAt.isNone && p.list_version.isNone

/-- Apply the `$set` patch of `update_task` to one task document. -/
def applyTaskUpdate (p : TaskUpdateData) (t : TaskRec) : TaskRec :=
  { t with
    user_id := p.user_id.getD t.user_id
    list_id := p.list_id.getD t.list_id
    task_id := p.task_id.getD t.task_id
    task_name := p.task_name.getD t.task_name
    reminders := p.reminders.getD t.reminders
    isComplete := p.isComplete.getD t.isComplete
    isPriority := p.isPriority.getD t.isPriority
    isRecurring := p.isRecurring.getD t.isRecurring
    createdAt := p.createdAt.getD t.createdAt
    updatedAt := p.updatedAt.getD t.updatedAt
    list_version := p.list_version.getD t.list_version }

/-- `update_task` (task.py 148-172).  Note the source's `update_one` filter
is `\x7b"user_id": user_id\x7d` (line 170), not the task id: the `$set`
lands on the first stored task of that user, whichever task that is.  The
refreshed view is then read back by `task_id`. -/
def update_task (uid tid : Nat) (p : TaskUpdateData) (db : DB) : Except Err TaskRec × DB :=
  if !(user_exists none none none (some uid) none db) then (.error .userNotFound, db)
  else if (db.tasks.find? (fun t => t.task_id == tid)).isNone then (.error .taskNotFound, db)
  else if emptyTaskUpdate p then (.error .noFieldsToUpdate, db)
  else
    let p' : TaskUpdateData := { p with updatedAt := some db.clock }
    let db' := { db with
      tasks := updateFirst (fun t => t.user_id == uid) (applyTaskUpdate p') db.tasks }
    (get_task tid db', db')

/-- `_duplicate_task` (task.py 189-209): read the source task, build a
creation draft copying user, list, name and the two carried flags, with
empty reminders and the new list version, and `create_task` it. -/
def _duplicate_task (tid : Nat) (new_list_version : Int) (db : DB) : Except Err TaskRec × DB :=
  match get_task tid db with
  | .error e => (.error e, db)
  | .ok t =>
    create_task
      ⟨t.user_id, t.list_id, t.task_name, [], t.isPriority, t.isRecurring, new_list_version⟩ db

/-- `TaskUpdate(**task.model_dump())` in the toggles: every update field is
explicitly set from the fetched task. -/
def fullTaskUpdate (t : TaskRec) : TaskUpdateData :=
  ⟨some t.user_id, some t.list_id, some t.task_id, some t.task_name, some t.reminders,
   some t.isComplete, some t.isPriority, some t.isRecurring, some t.createdAt,
   some t.updatedAt, some t.list_version⟩

/-- A toggle returns either the re-fetched task or, when the inner
`update_task` raised anything, the literal failure-message dict. -/
inductive ToggleResult where
  | ok (t : TaskRec)
  | message (s : String)
deriving DecidableEq

def toggleFailMsg : String := "Task toggle was not successful"

/-- Common body of `toggle_completion` / `toggle_recurring` /
`toggle_priority` (task.py 211-275); the three differ only in which flag
`flip` negates.  The `try`/`except` around `update_task` swallows every
exception into the message dict; the final `get_task` is outside the try. -/
def toggleCore (flip : TaskRec → TaskRec) (tid : Nat) (db : DB) :
    Except Err ToggleResult × DB :=
  match get_task tid db with
  | .error e => (.error e, db)
  | .ok t0 =>
    let t := flip t0
    match update_task t.user_id t.task_id (fullTaskUpdate t) db with
    | (.error _, db1) => (.ok (.message toggleFailMsg), db1)
    | (.ok _, db1) =>
      match get_task tid db1 with
      | .error e => (.error e, db1)
      | .ok r => (.ok (.ok r), db1)

def toggle_completion (tid : Nat) (db : DB) : Except Err ToggleResult × DB :=
  toggleCore (fun t => { t with isComplete := !t.isComplete }) tid db

def toggle_recurring (tid : Nat) (db : DB) : Except Err ToggleResult × DB :=
  toggleCore (fun t => { t with isRecurring := !t.isRecurring }) tid db

def toggle_priority (tid : Nat) (db : DB) : Except Err ToggleResult × DB :=
  toggleCore (fun t => { t with isPriority := !t.isPriority }) tid db

/-- `get_current_tasks_from_list` (task.py 277-295): read the list's live
version, return all tasks matching both the list id and that version. -/
def get_current_tasks_from_list (lid : Nat) (db : DB) : Except Err (List TaskRec) :=
  match get_list lid db with
  | .error e => .error e
  | .ok l => .ok (db.tasks.filter (fun t => t.list_id == lid && t.list_version == l.version))

/-- A task document after Mongo applied the projection
`\x7b"list_version": v\x7d` (the second positional argument of `find` at
task.py 315-318 is a projection, not a filter): every field optional. -/
structure TaskProj where
  user_id : Option Nat
  list_id : Option Nat
  task_id : Option Nat
  task_name : Option String
  reminders : Option (List Nat)
  isComplete : Option Bool
  isPriority : Option Bool
  isRecurring : Option Bool
  createdAt : Option Nat
  updatedAt : Option Nat
  list_version : Option Int
deriving DecidableEq

/-- Mongo projection semantics for `\x7b"list_version": v\x7d`: the value 0
is falsy and excludes the field (all others kept); any other value makes an
inclusion projection keeping only that field. -/
def projectByVersion (v : Int) (t : TaskRec) : TaskProj :=
  if v == 0 then
    ⟨some t.user_id, some t.list_id, some t.task_id, some t.task_name, some t.reminders,
     some t.isComplete, some t.isPriority, some t.isRecurring, some t.createdAt,
     some t.updatedAt, none⟩
  else
    ⟨none, none, none, none, none, none, none, none, none, none, some t.list_version⟩

/-- `TaskResponse(**t)` on a projected document: pydantic raises when any
required field is missing. -/
def taskOfProj (p : TaskProj) : Except Err TaskRec :=
  match p.user_id, p.list_id, p.task_id, p.task_name, p.reminders, p.isComplete,
      p.isPriority, p.isRecurring, p.createdAt, p.updatedAt, p.list_version with
  | some a, some b, some c, some d, some e, some f, some g, some h, some i, some j, some k =>
    .ok ⟨a, b, c, d, e, f, g, h, i, j, k⟩
  | _, _, _, _, _, _, _, _, _, _, _ => .error .validationError

def mapValidate : List TaskProj → Except Err (List TaskRec)
  | [] => .ok []
  | p :: ps =>
    match taskOfProj p with
    | .error e => .error e
    | .ok t =>
      match mapValidate ps with
      | .error e => .error e
      | .ok ts => .ok (t :: ts)

/-- `_get_tasks_from_list_version` (task.py 297-322).  The source calls
`self.list_service.list_exists(list_id)` positionally (line 305), so the
list id is bound to `list_exists`'s first parameter `user_id` and the
`list_id` keyword stays None; and the `find` on line 315-318 passes
`\x7b"list_version": list_version\x7d` as a projection, filtering on
`list_id` alone. -/
def _get_tasks_from_list_version (lid : Nat) (v : Int) (db : DB) : Except Err (List TaskRec) :=
  match list_exists (some lid) none none db with
  | .error e => .error e
  | .ok false => .error .listNotFound
  | .ok true =>
    match get_list lid db with
    | .error e => .error e
    | .ok l =>
      if v < 0 ∨ v > l.version then .error .invalidVersion
      else mapValidate ((db.tasks.filter (fun t => t.list_id == lid)).map (projectByVersion v))

/-- The duplication loop of `clear_list` / `rollover_list` (task.py 340-343
and 363-366); the two differ only in the carry-forward predicate. -/
def dupAll (pred : TaskRec → Bool) (v : Int) : List TaskRec → DB → Except Err Unit × DB
  | [], db => (.ok (), db)
  | t :: ts, db =>
    if pred t then
      match _duplicate_task t.task_id v db with
      | (.error e, db') => (.error e, db')
      | (.ok _, db') => dupAll pred v ts db'
    else dupAll pred v ts db

/-- Common body of `clear_list` (task.py 324-345) and `rollover_list`
(task.py 347-369): fetch current tasks, NoTasksToRemove on empty, increment
the list version, duplicate the tasks satisfying `pred`, re-read the
current tasks. -/
def listTransition (pred : TaskRec → Bool) (lid : Nat) (db : DB) :
    Except Err (List TaskRec) × DB :=
  match get_current_tasks_from_list lid db with
  | .error e => (.error e, db)
  | .ok tasks =>
    if tasks.length == 0 then (.error .noTasksToRemove, db)
    else
      match increment_version lid db with
      | (.error e, db') => (.error e, db')
      | (.ok newList, db') =>
        match dupAll pred newList.version tasks db' with
        | (.error e, db'') => (.error e, db'')
        | (.ok _, db'') => (get_current_tasks_from_list lid db'', db'')

/-- `clear_list`: carry forward the recurring tasks. -/
def clear_list (lid : Nat) (db : DB) : Except Err (List TaskRec) × DB :=
  listTransition (fun t => t.isRecurring) lid db

/-- `rollover_list`: carry forward recurring or not-yet-complete tasks. -/
def rollover_list (lid : Nat) (db : DB) : Except Err (List TaskRec) × DB :=
  listTransition (fun t => t.isRecurring || !t.isComplete) lid db

/-- Python `range(a, b)` over integers. -/
def pagesList (a b : Int) : List Int :=
  (List.range (b - a).toNat).map (fun (i : Nat) => a + (i : Int))

/-- The page loop of `get_versions_of_list`. -/
def versionsLoop (lid : Nat) (db : DB) : List Int → Except Err (List (List TaskRec))
  | [] => .ok []
  | p :: ps =>
    match _get_tasks_from_list_version lid p db with
    | .error e => .error e
    | .ok ts =>
      match versionsLoop lid db ps with
      | .error e => .error e
      | .ok rest => .ok (ts :: rest)

/-- `get_versions_of_list` (task.py 371-395).  The source's validity check
(line 387) compares `list_version` — a copy of the list's current version —
against `list_response.version`, i.e. against itself, so `page_start` is
never validated; then it collects `_get_tasks_from_list_version` for every
page in `range(page_start, page_end)`. -/
def get_versions_of_list (lid : Nat) (page_start page_end : Int) (db : DB) :
    Except Err (List (List TaskRec)) :=
  match get_list lid db with
  | .error e => .error e
  | .ok l =>
    if l.version < 0 ∨ l.version > l.version then .error .invalidVersion
    else versionsLoop lid db (pagesList page_start page_end)

/-! ### Specification-side helpers used only in theorem statements -/

/-- The duplicate that `_duplicate_task` makes of `t` when the store's id
counter is at `id` and the clock reads `clk`. -/
def dupOf (t : TaskRec) (id clk : Nat) (v : Int) : TaskRec :=
  ⟨t.user_id, t.list_id, id, t.task_name, [], false, t.isPriority, t.isRecurring,
   clk, clk, v⟩

/-- The duplicates a transition appends for the carried-forward tasks, ids
assigned consecutively from `base`. -/
def mkDups (base clk : Nat) (v : Int) : List TaskRec → List TaskRec
  | [] => []
  | t :: ts => dupOf t base clk v :: mkDups (base + 1) clk v ts

/-- The current tasks of list `lid` at version `v`, as stored. -/
def curTasksAt (lid : Nat) (v : Int) (db : DB) : List TaskRec :=
  db.tasks.filter (fun t => t.list_id == lid && t.list_version == v)

/-! ### Concrete store states used by the claim theorems -/

def pwStr : String := "pw"

def aliceStr : String := "alice"

/-- Alice, user id 0, email domain `x.com`. -/
def uA : UserDoc := ⟨0, "alice", "alice@x.com", "111", "Alice", "A", "#pw", 0, 0, "gA"⟩

/-- Bob, user id 1, same email domain `x.com` as Alice. -/
def uB : UserDoc := ⟨1, "bob", "bob@x.com", "222", "Bob", "B", "#pw2", 0, 0, "gB"⟩

/-- An ORGANIZATION_ONLY list of Alice's, share token 7. -/
def lOrgC6 : ListRec := ⟨10, 0, "org list", 0, 0, sORG, 1, 7⟩

/-- A PRIVATE list of Alice's, share token 8. -/
def lPrivC6 : ListRec := ⟨11, 0, "private list", 0, 0, sPRIVATE, 1, 8⟩

/-- A PUBLIC list of Alice's, share token 9. -/
def lPubC6 : ListRec := ⟨12, 0, "public list", 0, 0, sPUBLIC, 1, 9⟩

def dbC6 : DB := ⟨[uA, uB], [lOrgC6, lPrivC6, lPubC6], [], 2, 0⟩

def t1C5 : TaskRec := ⟨0, 5, 1, "first task", [], false, false, false, 0, 0, 1⟩

def t2C5 : TaskRec := ⟨0, 5, 2, "second task", [], false, false, false, 0, 0, 1⟩

def dbC5 : DB := ⟨[uA], [], [t1C5, t2C5], 3, 100⟩

def nameX : String := "renamed"

/-- A patch setting only `task_name`. -/
def patchC5 : TaskUpdateData :=
  ⟨none, none, none, some nameX, none, none, none, none, none, none, none⟩

/-- A task whose `user_id` resolves to no stored user. -/
def tLoneC8 : TaskRec := ⟨0, 5, 1, "orphaned", [], false, false, false, 0, 0, 1⟩

def dbC8a : DB := ⟨[], [], [tLoneC8], 2, 100⟩

def t1C8 : TaskRec := ⟨0, 5, 1, "first", [], false, false, false, 0, 0, 1⟩

def t2C8 : TaskRec := ⟨0, 5, 2, "second", [], false, true, false, 0, 0, 1⟩

def dbC8b : DB := ⟨[uA], [], [t1C8, t2C8], 3, 100⟩

/-- What the toggle's misdirected `$set` writes over `t1C8`'s document:
every field of the toggled `t2C8`, including its `task_id`. -/
def tClobC8 : TaskRec := ⟨0, 5, 2, "second", [], true, true, false, 0, 100, 1⟩

def gA : String := "gA"

/-! ### Shared helper lemmas -/

/-- `_get_tasks_from_list_version` raises InvalidParameters on every input:
the positional `list_exists(list_id)` call binds the list id to `user_id`,
leaves `list_name` and `list_id` None, and `list_exists` then takes its
no-arguments branch. -/
theorem getTasksFromListVersion_invalidParameters (lid : Nat) (v : Int) (db : DB) :
    _get_tasks_from_list_version lid v db = .error .invalidParameters := rfl

theorem find?_append_left {p : α → Bool} {l : List α} {a : α}
    (h : l.find? p = some a) (l' : List α) : (l ++ l').find? p = some a := by
  rw [List.find?_append, h]; rfl

theorem find?_updateFirst {p : α → Bool} {f : α → α} :
    ∀ {l : List α} {a : α}, l.find? p = some a → p (f a) = true →
      (updateFirst p f l).find? p = some (f a) := by
  intro l
  induction l with
  | nil => intro a h _; simp [List.find?] at h
  | cons x xs ih =>
    intro a h hf
    by_cases hx : p x
    · rw [List.find?_cons_of_pos _ hx] at h
      cases h
      rw [updateFirst, if_pos hx, List.find?_cons_of_pos _ hf]
    · rw [List.find?_cons_of_neg _ hx] at h
      rw [updateFirst, if_neg hx, List.find?_cons_of_neg _ hx]
      exact ih h hf

theorem any_updateFirst {q p : α → Bool} {f : α → α}
    (hq : ∀ a, q (f a) = q a) : ∀ l : List α, (updateFirst p f l).any q = l.any q := by
  intro l
  induction l with
  | nil => rfl
  | cons x xs ih =>
    by_cases hx : p x
    · rw [updateFirst, if_pos hx, List.any_cons, List.any_cons, hq]
    · rw [updateFirst, if_neg hx, List.any_cons, List.any_cons, ih]

theorem map_updateFirst {g : α → β} {p : α → Bool} {f : α → α}
    (hg : ∀ a, g (f a) = g a) : ∀ l : List α, (updateFirst p f l).map g = l.map g := by
  intro l
  induction l with
  | nil => rfl
  | cons x xs ih =>
    by_cases hx : p x
    · rw [updateFirst, if_pos hx, List.map_cons, List.map_cons, hg]
    · rw [updateFirst, if_neg hx, List.map_cons, List.map_cons, ih]

theorem any_of_find?_eq_some {p : α → Bool} {l : List α} {a : α}
    (h : l.find? p = some a) : l.any p = true :=
  List.any_eq_true.mpr ⟨a, List.mem_of_find?_eq_some h, List.find?_some h⟩

theorem get_list_ok_iff {lid : Nat} {db : DB} {l : ListRec} :
    get_list lid db = .ok l ↔ db.lists.find? (fun x => x.list_id == lid) = some l := by
  unfold get_list
  cases h : db.lists.find? (fun x => x.list_id == lid) <;> simp

theorem get_task_ok_iff {tid : Nat} {db : DB} {t : TaskRec} :
    get_task tid db = .ok t ↔ db.tasks.find? (fun x => x.task_id == tid) = some t := by
  unfold get_task
  cases h : db.tasks.find? (fun x => x.task_id == tid) <;> simp

theorem mem_curTasksAt {lid : Nat} {v : Int} {db : DB} {t : TaskRec}
    (h : t ∈ curTasksAt lid v db) : t.list_id = lid ∧ t.list_version = v := by
  unfold curTasksAt at h
  have := (List.mem_filter.mp h).2
  simp only [Bool.and_eq_true, beq_iff_eq] at this
  exact this

theorem mem_mkDups {clk : Nat} {v : Int} :
    ∀ {base : Nat} {ts : List TaskRec} {d : TaskRec}, d ∈ mkDups base clk v ts →
      ∃ t ∈ ts, d.list_id = t.list_id ∧ d.list_version = v := by
  intro base ts
  induction ts generalizing base with
  | nil => intro d h; simp [mkDups] at h
  | cons t ts ih =>
    intro d h
    rw [mkDups, List.mem_cons] at h
    rcases h with h | h
    · exact ⟨t, List.mem_cons_self t ts, by rw [h]; exact ⟨rfl, rfl⟩⟩
    · obtain ⟨t', ht', hp⟩ := ih h
      exact ⟨t', List.mem_cons_of_mem t ht', hp⟩

/-- The patch `ListUpdate(version=current + 1)` that `increment_version`
submits. -/
def incPatch (l : ListRec) : ListUpdateData :=
  ⟨none, none, none, none, none, some (l.version + 1), none, none⟩

/-- Evaluation of a successful `increment_version`: the first stored list
with this id gets its version replaced by `current + 1` and its
`last_updated_at` refreshed; the refreshed document is returned. -/
theorem increment_version_ok {lid : Nat} {db : DB} {l : ListRec}
    (h : db.lists.find? (fun x => x.list_id == lid) = some l) :
    increment_version lid db =
      (.ok (applyListUpdate (incPatch l) db.clock l),
       { db with lists := (updateFirst (fun x => x.list_id == lid)
           (applyListUpdate (incPatch l) db.clock) db.lists) }) := by
  have hany : db.lists.any (fun x => x.list_id == lid) = true := any_of_find?_eq_some h
  have hfs := List.find?_some h
  have hpl : ((applyListUpdate (incPatch l) db.clock l).list_id == lid) = true := by
    show (l.list_id == lid) = true
    exact hfs
  have hupd := find?_updateFirst (f := applyListUpdate (incPatch l) db.clock) h hpl
  unfold increment_version update_list list_exists list_existsL
  simp only [incPatch] at hupd ⊢
  simp [get_list, h, hany, hupd, emptyListUpdate]

/-- Evaluation of `get_current_tasks_from_list` from the two store reads it
performs. -/
theorem get_current_eq {lid : Nat} {db2 : DB} {l' : ListRec} {D : List TaskRec}
    (hfind : db2.lists.find? (fun x => x.list_id == lid) = some l')
    (hfilter : db2.tasks.filter
      (fun t => t.list_id == lid && t.list_version == l'.version) = D) :
    get_current_tasks_from_list lid db2 = .ok D := by
  unfold get_current_tasks_from_list get_list
  rw [hfind]
  exact congrArg Except.ok hfilter

/-- Evaluation of a successful `_duplicate_task`: the store gains exactly
one appended duplicate with a fresh id and the draft's fields. -/
theorem duplicate_task_ok {tid : Nat} {v : Int} {db : DB} {t : TaskRec}
    (hfind : db.tasks.find? (fun x => x.task_id == tid) = some t)
    (huser : user_existsL none none none (some t.user_id) none db.users = true)
    (hlist : db.lists.any (fun x => x.list_id == t.list_id) = true) :
    _duplicate_task tid v db =
      (.ok (dupOf t db.nextId db.clock v),
       { db with tasks := db.tasks ++ [dupOf t db.nextId db.clock v],
                 nextId := db.nextId + 1 }) := by
  unfold _duplicate_task get_task
  rw [hfind]
  simp [create_task, user_exists, list_exists, list_existsL, huser, hlist, dupOf]

/-- The duplication loop, run on tasks that are each the first store match
for their own id, whose users exist and whose lists exist, appends exactly
the duplicates of the tasks satisfying the carry-forward predicate, ids
assigned consecutively; nothing else in the store changes. -/
theorem dupAll_spec (pred : TaskRec → Bool) (v : Int) :
    ∀ (ts : List TaskRec) (db0 : DB),
      (∀ t ∈ ts, db0.tasks.find? (fun x => x.task_id == t.task_id) = some t) →
      (∀ t ∈ ts, user_existsL none none none (some t.user_id) none db0.users = true) →
      (∀ t ∈ ts, db0.lists.any (fun x => x.list_id == t.list_id) = true) →
      dupAll pred v ts db0 =
        (.ok (), { db0 with
          tasks := (db0.tasks ++ mkDups db0.nextId db0.clock v (ts.filter pred)),
          nextId := (db0.nextId + (ts.filter pred).length) }) := by
  intro ts
  induction ts with
  | nil =>
    intro db0 _ _ _
    simp [dupAll, mkDups]
  | cons t ts ih =>
    intro db0 hfind huser hlist
    have hmem : t ∈ t :: ts := List.mem_cons_self t ts
    by_cases hp : pred t
    · have hdup := duplicate_task_ok (v := v) (hfind t hmem) (huser t hmem) (hlist t hmem)
      have ihr := ih { db0 with tasks := db0.tasks ++ [dupOf t db0.nextId db0.clock v],
                                nextId := db0.nextId + 1 }
        (fun t' ht' => find?_append_left (hfind t' (List.mem_cons_of_mem t ht')) _)
        (fun t' ht' => huser t' (List.mem_cons_of_mem t ht'))
        (fun t' ht' => hlist t' (List.mem_cons_of_mem t ht'))
      simp only [dupAll, hp, if_true, hdup, ihr]
      simp [List.filter_cons_of_pos, hp, mkDups, Nat.add_assoc, Nat.add_comm, Nat.add_left_comm]
    · have hp' : pred t = false := by simpa using hp
      have ihr := ih db0
        (fun t' ht' => hfind t' (List.mem_cons_of_mem t ht'))
        (fun t' ht' => huser t' (List.mem_cons_of_mem t ht'))
        (fun t' ht' => hlist t' (List.mem_cons_of_mem t ht'))
      simp only [dupAll, hp', Bool.false_eq_true, if_false, ihr]
      simp [List.filter_cons_of_neg, hp']

/-- Full evaluation of a successful `clear_list` / `rollover_list` body:
the list's version is bumped by one, the store gains exactly the duplicates
of the current tasks satisfying the carry-forward predicate (every other
current task is retired with no new record), and the returned value is the
re-read current-task list at the bumped version, which consists of exactly
those duplicates. -/
theorem listTransition_spec (pred : TaskRec → Bool) (lid : Nat) (db : DB) (l : ListRec)
    (h1 : db.lists.find? (fun x => x.list_id == lid) = some l)
    (h2 : curTasksAt lid l.version db ≠ [])
    (h3 : ∀ t ∈ curTasksAt lid l.version db,
      db.tasks.find? (fun x => x.task_id == t.task_id) = some t)
    (h4 : ∀ t ∈ curTasksAt lid l.version db,
      user_existsL none none none (some t.user_id) none db.users = true)
    (h5 : ∀ t ∈ db.tasks, t.list_id = lid → ¬ t.list_version = l.version + 1) :
    listTransition pred lid db =
      (.ok (mkDups db.nextId db.clock (l.version + 1)
          ((curTasksAt lid l.version db).filter pred)),
       { db with
         lists := (updateFirst (fun x => x.list_id == lid)
           (applyListUpdate (incPatch l) db.clock) db.lists),
         tasks := (db.tasks ++ mkDups db.nextId db.clock (l.version + 1)
           ((curTasksAt lid l.version db).filter pred)),
         nextId := (db.nextId +
           ((curTasksAt lid l.version db).filter pred).length) }) ∧
    get_current_tasks_from_list lid (listTransition pred lid db).2 =
      (listTransition pred lid db).1 := by
  have hcur : get_current_tasks_from_list lid db = .ok (curTasksAt lid l.version db) :=
    get_current_eq h1 rfl
  have hlen : ((curTasksAt lid l.version db).length == 0) = false := by
    cases hc : curTasksAt lid l.version db with
    | nil => exact absurd hc h2
    | cons a as => rfl
  have hinc := @increment_version_ok lid db l h1
  have hfs := List.find?_some h1
  have hpl : ((applyListUpdate (incPatch l) db.clock l).list_id == lid) = true := by
    show (l.list_id == lid) = true
    exact hfs
  have hupd := find?_updateFirst (f := applyListUpdate (incPatch l) db.clock) h1 hpl
  have hlist' : ∀ t ∈ curTasksAt lid l.version db,
      (updateFirst (fun x => x.list_id == lid) (applyListUpdate (incPatch l) db.clock)
        db.lists).any (fun x => x.list_id == t.list_id) = true := by
    intro t ht
    have hmem := mem_curTasksAt ht
    have hq : ∀ a : ListRec,
        ((applyListUpdate (incPatch l) db.clock a).list_id == t.list_id) =
          (a.list_id == t.list_id) := fun a => rfl
    rw [any_updateFirst hq, hmem.1]
    exact any_of_find?_eq_some h1
  have hdup := dupAll_spec pred (l.version + 1) (curTasksAt lid l.version db)
    { db with lists := (updateFirst (fun x => x.list_id == lid)
        (applyListUpdate (incPatch l) db.clock) db.lists) }
    h3 h4 hlist'
  have hvproj : (applyListUpdate (incPatch l) db.clock l).version = l.version + 1 := rfl
  have hfilter2 : (db.tasks ++ mkDups db.nextId db.clock (l.version + 1)
      ((curTasksAt lid l.version db).filter pred)).filter
        (fun t => t.list_id == lid && t.list_version == l.version + 1) =
      mkDups db.nextId db.clock (l.version + 1)
        ((curTasksAt lid l.version db).filter pred) := by
    rw [List.filter_append]
    have hA : db.tasks.filter
        (fun t => t.list_id == lid && t.list_version == l.version + 1) = [] := by
      rw [List.filter_eq_nil_iff]
      intro a ha hqa
      simp only [Bool.and_eq_true, beq_iff_eq] at hqa
      exact h5 a ha hqa.1 hqa.2
    have hB : (mkDups db.nextId db.clock (l.version + 1)
        ((curTasksAt lid l.version db).filter pred)).filter
          (fun t => t.list_id == lid && t.list_version == l.version + 1) =
        mkDups db.nextId db.clock (l.version + 1)
          ((curTasksAt lid l.version db).filter pred) := by
      rw [List.filter_eq_self]
      intro d hd
      obtain ⟨t, htF, hdl, hdv⟩ := mem_mkDups hd
      have htC := List.mem_of_mem_filter htF
      have hmem := mem_curTasksAt htC
      simp [hdl, hdv, hmem.1]
    rw [hA, hB, List.nil_append]
  have hfin : get_current_tasks_from_list lid
      { db with
        lists := (updateFirst (fun x => x.list_id == lid)
          (applyListUpdate (incPatch l) db.clock) db.lists),
        tasks := (db.tasks ++ mkDups db.nextId db.clock (l.version + 1)
          ((curTasksAt lid l.version db).filter pred)),
        nextId := (db.nextId +
          ((curTasksAt lid l.version db).filter pred).length) } =
      .ok (mkDups db.nextId db.clock (l.version + 1)
        ((curTasksAt lid l.version db).filter pred)) :=
    get_current_eq hupd hfilter2
  have hmain : listTransition pred lid db =
      (.ok (mkDups db.nextId db.clock (l.version + 1)
          ((curTasksAt lid l.version db).filter pred)),
       { db with
         lists := (updateFirst (fun x => x.list_id == lid)
           (applyListUpdate (incPatch l) db.clock) db.lists),
         tasks := (db.tasks ++ mkDups db.nextId db.clock (l.version + 1)
           ((curTasksAt lid l.version db).filter pred)),
         nextId := (db.nextId +
           ((curTasksAt lid l.version db).filter pred).length) }) := by
    unfold listTransition
    simp only [hcur, hlen, Bool.false_eq_true, if_false, hinc, hvproj, hdup, hfin]
  refine ⟨hmain, ?_⟩
  rw [hmain]
  exact hfin

/-! ### Claim theorems -/

/-- Claim C1: on a known list with a non-empty set of current tasks (each
the first store match for its id, with existing user), `clearList`
duplicates forward exactly the current tasks with `isRecurring = true` and
`rolloverList` exactly those with `isRecurring = true` or
`isComplete = false` — the store becomes the old records plus precisely the
duplicates of the filtered tasks, so every other current task is retired
with no new record — and each operation returns the current tasks of the
list at the incremented version, which are exactly those duplicates. -/
theorem C1_clear_rollover_carry (lid : Nat) (db : DB) (l : ListRec)
    (h1 : get_list lid db = .ok l)
    (h2 : curTasksAt lid l.version db ≠ [])
    (h3 : ∀ t ∈ curTasksAt lid l.version db,
      db.tasks.find? (fun x => x.task_id == t.task_id) = some t)
    (h4 : ∀ t ∈ curTasksAt lid l.version db,
      user_existsL none none none (some t.user_id) none db.users = true)
    (h5 : ∀ t ∈ db.tasks, t.list_id = lid → ¬ t.list_version = l.version + 1) :
    (clear_list lid db =
      (.ok (mkDups db.nextId db.clock (l.version + 1)
          ((curTasksAt lid l.version db).filter (fun t => t.isRecurring))),
       { db with
         lists := (updateFirst (fun x => x.list_id == lid)
           (applyListUpdate (incPatch l) db.clock) db.lists),
         tasks := (db.tasks ++ mkDups db.nextId db.clock (l.version + 1)
           ((curTasksAt lid l.version db).filter (fun t => t.isRecurring))),
         nextId := (db.nextId +
           ((curTasksAt lid l.version db).filter (fun t => t.isRecurring)).length) }) ∧
     get_current_tasks_from_list lid (clear_list lid db).2 = (clear_list lid db).1) ∧
    (rollover_list lid db =
      (.ok (mkDups db.nextId db.clock (l.version + 1)
          ((curTasksAt lid l.version db).filter
            (fun t => t.isRecurring || !t.isComplete))),
       { db with
         lists := (updateFirst (fun x => x.list_id == lid)
           (applyListUpdate (incPatch l) db.clock) db.lists),
         tasks := (db.tasks ++ mkDups db.nextId db.clock (l.version + 1)
           ((curTasksAt lid l.version db).filter
             (fun t => t.isRecurring || !t.isComplete))),
         nextId := (db.nextId + ((curTasksAt lid l.version db).filter
             (fun t => t.isRecurring || !t.isComplete)).length) }) ∧
     get_current_tasks_from_list lid (rollover_list lid db).2 =
       (rollover_list lid db).1) :=
  ⟨listTransition_spec (fun t => t.isRecurring) lid db l
     (get_list_ok_iff.mp h1) h2 h3 h4 h5,
   listTransition_spec (fun t => t.isRecurring || !t.isComplete) lid db l
     (get_list_ok_iff.mp h1) h2 h3 h4 h5⟩

/-- A version-1 list holding a recurring incomplete task, a non-recurring
complete task and a non-recurring incomplete task. -/
def lW : ListRec := ⟨10, 0, "weekly", 0, 0, sPRIVATE, 1, 7⟩

def tRw : TaskRec := ⟨0, 10, 1, "recurring chore", [], false, false, true, 0, 0, 1⟩

def tNw : TaskRec := ⟨0, 10, 2, "done once", [], true, false, false, 0, 0, 1⟩

def tIw : TaskRec := ⟨0, 10, 3, "unfinished", [], false, true, false, 0, 0, 1⟩

def dbW : DB := ⟨[uA], [lW], [tRw, tNw, tIw], 4, 50⟩

theorem C1_clear_rollover_carry_witness :
    get_list 10 dbW = .ok lW ∧
    curTasksAt 10 lW.version dbW ≠ [] ∧
    (∀ t ∈ curTasksAt 10 lW.version dbW,
      dbW.tasks.find? (fun x => x.task_id == t.task_id) = some t) ∧
    (∀ t ∈ curTasksAt 10 lW.version dbW,
      user_existsL none none none (some t.user_id) none dbW.users = true) ∧
    (∀ t ∈ dbW.tasks, t.list_id = 10 → ¬ t.list_version = lW.version + 1) ∧
    (clear_list 10 dbW).1 = .ok [dupOf tRw 4 50 2] ∧
    (rollover_list 10 dbW).1 = .ok [dupOf tRw 4 50 2, dupOf tIw 5 50 2] := by
  have h := C1_clear_rollover_carry 10 dbW lW rfl (by decide) (by decide) (by decide) (by decide)
  refine ⟨rfl, by decide, by decide, by decide, by decide, ?_, ?_⟩
  · rw [h.1.1]; rfl
  · rw [h.2.1]; rfl

/-- Claim C2: a successful `duplicateForward(task, v)` appends exactly one
new record copying `user_id`, `list_id`, `task_name`, `isPriority` and
`isRecurring` from the source, with empty `reminders`, `isComplete` false,
`list_version = v`, and a fresh id; the store keeps every pre-existing
record (the source included) unchanged. -/
theorem C2_duplicate_forward_fields (tid : Nat) (v : Int) (db : DB) (t : TaskRec)
    (hfind : get_task tid db = .ok t)
    (huser : user_existsL none none none (some t.user_id) none db.users = true)
    (hlist : db.lists.any (fun x => x.list_id == t.list_id) = true) :
    _duplicate_task tid v db =
      (.ok (dupOf t db.nextId db.clock v),
       { db with tasks := db.tasks ++ [dupOf t db.nextId db.clock v],
                 nextId := db.nextId + 1 }) ∧
    (dupOf t db.nextId db.clock v).user_id = t.user_id ∧
    (dupOf t db.nextId db.clock v).list_id = t.list_id ∧
    (dupOf t db.nextId db.clock v).task_name = t.task_name ∧
    (dupOf t db.nextId db.clock v).isPriority = t.isPriority ∧
    (dupOf t db.nextId db.clock v).isRecurring = t.isRecurring ∧
    (dupOf t db.nextId db.clock v).reminders = [] ∧
    (dupOf t db.nextId db.clock v).isComplete = false ∧
    (dupOf t db.nextId db.clock v).list_version = v :=
  ⟨duplicate_task_ok (get_task_ok_iff.mp hfind) huser hlist,
   rfl, rfl, rfl, rfl, rfl, rfl, rfl, rfl⟩

/-- A recurring, completed source task carrying reminders. -/
def tRemC2 : TaskRec := ⟨0, 10, 1, "with reminders", [3, 4], true, true, true, 0, 0, 1⟩

def dbC2 : DB := ⟨[uA], [lOrgC6], [tRemC2], 2, 77⟩

theorem C2_duplicate_forward_fields_witness :
    get_task 1 dbC2 = .ok tRemC2 ∧
    user_existsL none none none (some tRemC2.user_id) none dbC2.users = true ∧
    dbC2.lists.any (fun x => x.list_id == tRemC2.list_id) = true ∧
    (_duplicate_task 1 2 dbC2).1 = .ok (dupOf tRemC2 2 77 2) ∧
    (_duplicate_task 1 2 dbC2).2.tasks = [tRemC2, dupOf tRemC2 2 77 2] ∧
    (dupOf tRemC2 2 77 2).reminders = [] ∧
    (dupOf tRemC2 2 77 2).isComplete = false ∧
    tRemC2.reminders ≠ [] := by
  have h := C2_duplicate_forward_fields 1 2 dbC2 tRemC2 rfl rfl rfl
  exact ⟨rfl, rfl, rfl, by rw [h.1]; rfl, by rw [h.1]; rfl, h.2.2.2.2.2.2.1, h.2.2.2.2.2.2.2.1,
    by decide⟩

/-- Claim C4: on a known list whose current version holds no tasks,
`clearList` and `rolloverList` both fail with NoTasksToRemove and the store
— the list's version and every task record included — is returned exactly
as it was: no version bump, no writes. -/
theorem C4_empty_list_guard (lid : Nat) (db : DB) (l : ListRec)
    (h1 : get_list lid db = .ok l)
    (h2 : curTasksAt lid l.version db = []) :
    clear_list lid db = (.error .noTasksToRemove, db) ∧
    rollover_list lid db = (.error .noTasksToRemove, db) := by
  unfold curTasksAt at h2
  have hcur : get_current_tasks_from_list lid db = .ok [] := by
    unfold get_current_tasks_from_list
    rw [h1]
    exact congrArg Except.ok h2
  constructor
  · unfold clear_list listTransition
    rw [hcur]
    rfl
  · unfold rollover_list listTransition
    rw [hcur]
    rfl

/-- A list at version 2 whose only task sits at the retired version 1. -/
def lC4 : ListRec := ⟨20, 0, "old list", 0, 0, sPRIVATE, 2, 30⟩

def tOldC4 : TaskRec := ⟨0, 20, 1, "archived", [], false, false, true, 0, 0, 1⟩

def dbC4 : DB := ⟨[uA], [lC4], [tOldC4], 2, 9⟩

theorem C4_empty_list_guard_witness :
    get_list 20 dbC4 = .ok lC4 ∧
    curTasksAt 20 lC4.version dbC4 = [] ∧
    clear_list 20 dbC4 = (.error .noTasksToRemove, dbC4) ∧
    rollover_list 20 dbC4 = (.error .noTasksToRemove, dbC4) := by
  have h := C4_empty_list_guard 20 dbC4 lC4 rfl rfl
  exact ⟨rfl, rfl, h.1, h.2⟩

/-- Claim C3: `tasksAtVersion(list_id, v)` is claimed to return exactly the
tasks of the list at version `v` for `0 ≤ v ≤ current`, with ListNotFound /
InvalidVersion on the error paths.  The code instead raises
InvalidParameters on every call — also on the repository's own test
scenario (list known, `v = 0`, tasks present at that version) — because it
passes the list id positionally into `list_exists`'s `user_id` parameter. -/
theorem C3_tasksAtVersion_always_invalidParameters :
    (∀ (lid : Nat) (v : Int) (db : DB),
      _get_tasks_from_list_version lid v db = .error .invalidParameters) ∧
    get_list 10 dbC6 = .ok lOrgC6 ∧
    _get_tasks_from_list_version 10 0 dbC6 = .error .invalidParameters ∧
    _get_tasks_from_list_version 10 (-1) dbC6 = .error .invalidParameters :=
  ⟨fun lid v db => getTasksFromListVersion_invalidParameters lid v db, rfl, rfl, rfl⟩

/-- Claim C9: `user_exists` is claimed to OR-match on any supplied field
among username, email, phone_number, user_id and external-auth id
(google_id); the code never adds `google_id` to the query conditions, so a
google_id-only lookup returns false for every store, even one holding a
matching user; with no criteria it returns false (that part holds). -/
theorem C9_user_exists_ignores_google_id :
    (∀ (g : String) (db : DB), user_exists none none none none (some g) db = false) ∧
    (∀ db : DB, user_exists none none none none none db = false) ∧
    (∃ u ∈ dbC6.users, u.google_id = gA) ∧
    user_exists none none none none (some gA) dbC6 = false :=
  ⟨fun _ _ => rfl, fun _ => rfl, by decide, rfl⟩

/-- Claim C5: `update(user_id, task_id, patch)` is claimed to apply the
patch to the task identified by `task_id`, leaving every other task
unchanged.  The code's `update_one` filter is `\x7b"user_id": user_id\x7d`,
so with two stored tasks of the same user the patch lands on the first one
(`t1C5`) while the targeted second task is returned unchanged. -/
theorem C5_update_task_patches_wrong_task :
    update_task 0 2 patchC5 dbC5 =
      (.ok t2C5,
       { dbC5 with tasks := [{ t1C5 with task_name := nameX, updatedAt := 100 }, t2C5] }) ∧
    t2C5.task_name = "second task" ∧ t1C5.task_id ≠ t2C5.task_id := by
  refine ⟨rfl, rfl, by decide⟩

/-- Claim C8: a toggle is claimed to either flip exactly its one flag on
that task, leaving every other task unchanged, or propagate the failure.
The code (a) swallows any `update_task` failure into a message dict: with
the task's user missing, `toggle_completion` returns the message instead of
UserNotFound; and (b) via the `user_id`-filtered `update_one`, toggling the
second task of a user overwrites the first task's document wholesale (even
its `task_id`), leaving two documents with the same task id. -/
theorem C8_toggle_swallows_and_clobbers :
    toggle_completion 1 dbC8a = (.ok (.message toggleFailMsg), dbC8a) ∧
    toggle_completion 2 dbC8b = (.ok (.ok tClobC8), { dbC8b with tasks := [tClobC8, t2C8] }) ∧
    tClobC8.task_id = t2C8.task_id ∧ t1C8.task_id ≠ t2C8.task_id := by
  refine ⟨rfl, rfl, rfl, by decide⟩

/-- Claim C6: share-token fetch.  Unknown token → NotFound, owner always
succeeds, PRIVATE denies non-owners, PUBLIC admits them: all as claimed.
But on an ORGANIZATION_ONLY list every non-owner request — here Bob, whose
email domain `x.com` equals Alice's, so the claim says success — raises
AttributeError, because the code reads `owner.domain_name`, a field the
user view does not have, before any domain comparison. -/
theorem C6_share_token_org_branch_crashes :
    get_list_with_share_token 7 1 dbC6 = .error .attributeError ∧
    uA.email = "alice@x.com" ∧ uB.email = "bob@x.com" ∧
    get_list_with_share_token 7 0 dbC6 = .ok lOrgC6 ∧
    get_list_with_share_token 8 1 dbC6 = .error .listAuthDenied ∧
    get_list_with_share_token 9 1 dbC6 = .ok lPubC6 ∧
    get_list_with_share_token 99 1 dbC6 = .error .listNotFound :=
  ⟨rfl, rfl, rfl, rfl, rfl, rfl, rfl⟩

/-- Claim C7: `versionsOfList` is claimed to fail with InvalidVersion for
`page_start < 0` or `page_start >` current version and otherwise return the
`page_end - page_start` per-version collections.  The code validates
nothing (its check compares the current version with itself) and every
non-empty page range hits `_get_tasks_from_list_version`'s InvalidParameters
on the first page; an empty range returns the empty sequence. -/
theorem C7_versions_pagination_broken (lid : Nat) (ps pe : Int) (db : DB) (l : ListRec)
    (h1 : get_list lid db = .ok l) (h2 : 0 ≤ l.version) :
    get_versions_of_list lid ps pe db =
      (if ps < pe then .error .invalidParameters else .ok []) := by
  unfold get_versions_of_list
  simp only [h1]
  have hcond : ¬(l.version < 0 ∨ l.version > l.version) := by omega
  rw [if_neg hcond]
  by_cases hlt : ps < pe
  · have htn : (pe - ps).toNat ≠ 0 := by omega
    obtain ⟨k, hk⟩ := Nat.exists_eq_succ_of_ne_zero htn
    rw [if_pos hlt]
    unfold pagesList
    rw [hk, List.range_succ_eq_map, List.map_cons]
    simp [versionsLoop, getTasksFromListVersion_invalidParameters]
  · have h0 : (pe - ps).toNat = 0 := by omega
    rw [if_neg hlt]
    unfold pagesList
    rw [h0]
    rfl

theorem C7_versions_pagination_broken_witness :
    get_list 10 dbC6 = .ok lOrgC6 ∧ (0 : Int) ≤ lOrgC6.version ∧
    get_versions_of_list 10 (-1) 1 dbC6 =
      (if (-1 : Int) < 1 then .error .invalidParameters else .ok []) ∧
    get_versions_of_list 10 0 1 dbC6 =
      (if (0 : Int) < 1 then .error .invalidParameters else .ok []) ∧
    get_versions_of_list 10 2 2 dbC6 =
      (if (2 : Int) < 2 then .error .invalidParameters else .ok []) := by
  have ha := C7_versions_pagination_broken 10 (-1) 1 dbC6 lOrgC6 rfl (by decide)
  have hb := C7_versions_pagination_broken 10 0 1 dbC6 lOrgC6 rfl (by decide)
  have hc := C7_versions_pagination_broken 10 2 2 dbC6 lOrgC6 rfl (by decide)
  exact ⟨rfl, by decide, ha, hb, hc⟩

/-- `applySeq` folds a sequence of `update_user` calls over the store,
keeping each call's resulting state. -/
def applySeq : List (Nat × UserUpdateData) → DB → DB
  | [], db => db
  | s :: ss, db => applySeq ss ((update_user s.1 s.2 db).2)

def bobStr : String := "bob"

def dbC10 : DB := ⟨[uA], [], [], 1, 5⟩

/-- A patch renaming the user to `bob`. -/
def patchC10 : UserUpdateData := ⟨some bobStr, none, none, none, none, none⟩

/-- Claim C10 as stated is false: an update may set `username`, and then a
previously accepted (username, password) pair is rejected. -/
theorem C10_counterexample_username_rename :
    (authenticate_user aliceStr pwStr dbC10).isSome = true ∧
    (authenticate_user aliceStr pwStr ((update_user 0 patchC10 dbC10).2)).isSome = false :=
  ⟨rfl, rfl⟩

theorem authAux : ∀ (l1 l2 : List UserDoc),
    l1.map (fun u => (u.username, u.password)) = l2.map (fun u => (u.username, u.password)) →
    ∀ n p,
    (Option.isSome (match l1.find? (fun u => u.username == n) with
      | none => none
      | some u => if _verify_password p u.password then some (userViewOf u) else none)) =
    (Option.isSome (match l2.find? (fun u => u.username == n) with
      | none => none
      | some u => if _verify_password p u.password then some (userViewOf u) else none)) := by
  intro l1
  induction l1 with
  | nil =>
    intro l2 h n p
    cases l2 with
    | nil => rfl
    | cons b l2 => simp at h
  | cons a l1 ih =>
    intro l2 h n p
    cases l2 with
    | nil => simp at h
    | cons b l2 =>
      simp only [List.map_cons, List.cons.injEq] at h
      obtain ⟨hab, hrest⟩ := h
      have hun : a.username = b.username := congrArg Prod.fst hab
      have hpw : a.password = b.password := congrArg Prod.snd hab
      by_cases hn : (a.username == n) = true
      · rw [List.find?_cons_of_pos (p := fun u => u.username == n) l1 hn,
          List.find?_cons_of_pos (p := fun u => u.username == n) l2
            (show (b.username == n) = true by rw [← hun]; exact hn)]
        show (Option.isSome
            (if _verify_password p a.password then some (userViewOf a) else none)) =
          (Option.isSome
            (if _verify_password p b.password then some (userViewOf b) else none))
        rw [hpw]
        cases hv : _verify_password p b.password <;> simp [hv]
      · rw [List.find?_cons_of_neg (p := fun u => u.username == n) l1 hn,
          List.find?_cons_of_neg (p := fun u => u.username == n) l2
            (show ¬(b.username == n) = true by rw [← hun]; exact hn)]
        exact ih l2 hrest n p

/-- Whether `authenticate_user` accepts a pair depends only on the stored
(username, password) columns. -/
theorem authenticate_depends_on_cred (db1 db2 : DB)
    (h : db1.users.map (fun u => (u.username, u.password)) =
         db2.users.map (fun u => (u.username, u.password))) (n p : String) :
    (authenticate_user n p db1).isSome = (authenticate_user n p db2).isSome :=
  authAux db1.users db2.users h n p

/-- `update_user` never touches the stored password column: `UserUpdate`
has no password field. -/
theorem update_user_keeps_password (uid : Nat) (p : UserUpdateData) (db : DB) :
    ((update_user uid p db).2).users.map (fun u => u.password) =
      db.users.map (fun u => u.password) := by
  unfold update_user
  by_cases hex : user_exists none none none (some uid) none db = true
  · simp only [hex, Bool.not_true, Bool.false_eq_true, if_false]
    by_cases he : emptyUserUpdate p = true
    · simp only [he, if_true]
    · have he' : emptyUserUpdate p = false := by simpa using he
      simp only [he', Bool.false_eq_true, if_false]
      exact @map_updateFirst UserDoc String (fun u => u.password)
        (fun u => u.user_id == uid) (applyUserUpdate p db.clock)
        (fun u => rfl) db.users
  · have hex' : user_exists none none none (some uid) none db = false := by simpa using hex
    simp only [hex', Bool.not_false, if_true]

/-- A `username`-preserving `update_user` keeps the (username, password)
columns of every stored user. -/
theorem update_user_keeps_cred (uid : Nat) (p : UserUpdateData) (db : DB)
    (hU : p.username = none) :
    ((update_user uid p db).2).users.map (fun u => (u.username, u.password)) =
      db.users.map (fun u => (u.username, u.password)) := by
  unfold update_user
  by_cases hex : user_exists none none none (some uid) none db = true
  · simp only [hex, Bool.not_true, Bool.false_eq_true, if_false]
    by_cases he : emptyUserUpdate p = true
    · simp only [he, if_true]
    · have he' : emptyUserUpdate p = false := by simpa using he
      simp only [he', Bool.false_eq_true, if_false]
      exact @map_updateFirst UserDoc (String × String) (fun u => (u.username, u.password))
        (fun u => u.user_id == uid) (applyUserUpdate p db.clock)
        (fun u => by simp [applyUserUpdate, hU]) db.users
  · have hex' : user_exists none none none (some uid) none db = false := by simpa using hex
    simp only [hex', Bool.not_false, if_true]

/-- Claim C10, amended: user update leaves every stored password hash
unchanged (the update schema has no password field), and after any sequence
of updates none of which sets `username`, authenticate accepts exactly the
same (username, password) pairs as before; an update that sets `username`
can change which pairs are accepted (see the counterexample). -/
theorem C10_password_frame_amended (seq : List (Nat × UserUpdateData)) (db : DB)
    (h : ∀ s ∈ seq, s.2.username = none) :
    (applySeq seq db).users.map (fun u => u.password) =
      db.users.map (fun u => u.password) ∧
    ∀ n p, (authenticate_user n p (applySeq seq db)).isSome =
      (authenticate_user n p db).isSome := by
  induction seq generalizing db with
  | nil => exact ⟨rfl, fun n p => rfl⟩
  | cons s ss ih =>
    have hrest : ∀ x ∈ ss, x.2.username = none :=
      fun x hx => h x (List.mem_cons_of_mem _ hx)
    have ihr := ih ((update_user s.1 s.2 db).2) hrest
    refine ⟨ihr.1.trans (update_user_keeps_password s.1 s.2 db), fun n p => ?_⟩
    have hcred := update_user_keeps_cred s.1 s.2 db (h s (List.mem_cons_self s ss))
    exact (ihr.2 n p).trans (authenticate_depends_on_cred _ _ hcred n p)

def emailStr : String := "new@y.com"

/-- A username-free update sequence: one patch setting only the email. -/
def seqW : List (Nat × UserUpdateData) :=
  [(0, ⟨none, some emailStr, none, none, none, none⟩)]

theorem C10_password_frame_amended_witness :
    (∀ s ∈ seqW, s.2.username = none) ∧
    (applySeq seqW dbC10).users.map (fun u => u.password) =
      dbC10.users.map (fun u => u.password) ∧
    (authenticate_user aliceStr pwStr (applySeq seqW dbC10)).isSome =
      (authenticate_user aliceStr pwStr dbC10).isSome := by
  have h := C10_password_frame_amended seqW dbC10 (by decide)
  exact ⟨by decide, h.1, h.2 aliceStr pwStr⟩

end CDM
